import Mathlib

/-!
# Verification of the tauri-windows-bundle configuration / manifest engine

Shallow embedding of the TypeScript sources of `tauri-windows-bundle`:

* `src/utils/merge.ts` — the RFC-7396-style `jsonMergePatch` deep-merge engine;
* `src/types.ts` — the configuration record types, capability whitelists,
  `DEFAULT_CAPABILITIES` and `validateCapabilities`;
* `src/core/project-discovery.ts` — `toFourPartVersion`;
* `src/core/manifest.ts` — `generateCapabilities`, `generateClsid` and the
  `CAPABILITIES` template-variable computation of `generateManifest`;
* the configuration resolver (publisher fallback chain), whose source module
  is not part of the snapshot and is therefore modelled from the spec.

JavaScript strings are embedded as Lean `String`s; where character-level
reasoning is needed (`split` / `join`) they are embedded as `List Char`.
JavaScript objects appearing as generic JSON documents are embedded as
association lists preserving insertion order, matching JS object semantics.
-/

namespace TauriWindowsBundle

/-! ## JSON values (documents consumed by `jsonMergePatch`)

JSON documents as deserialized by `JSON.parse`.  Numbers are embedded as
integers (all numbers appearing in the repository's configuration documents
and tests are integers). -/

inductive Json where
  | null : Json
  | bool (b : Bool) : Json
  | num (n : Int) : Json
  | str (s : String) : Json
  | arr (elems : List Json) : Json
  | obj (fields : List (String × Json)) : Json

/-- JS property read `fields[key]`: the value of the first matching key,
`none` standing for JS `undefined`. -/
def objGet (key : String) : List (String × Json) → Option Json
  | [] => none
  | (k, v) :: rest => if k = key then some v else objGet key rest

/-- JS `delete result[key]`: remove the key's entries. -/
def objDelete (key : String) (fields : List (String × Json)) : List (String × Json) :=
  fields.filter (fun p => p.1 ≠ key)

/-- JS assignment `result[key] = v`: overwrite in place when the key exists,
otherwise append the new key at the end (JS insertion order). -/
def objSet (key : String) (v : Json) : List (String × Json) → List (String × Json)
  | [] => [(key, v)]
  | (k, w) :: rest => if k = key then (k, v) :: rest else (k, w) :: objSet key v rest

/-- `isObject` from `src/utils/merge.ts`: non-null, of type object, not an
array. -/
def isObject : Json → Bool
  | .obj _ => true
  | _ => false

mutual

/-- `jsonMergePatch` from `src/utils/merge.ts`.  If the patch is not an
object it replaces the target wholesale; otherwise the result starts from a
shallow copy of the target (or `{}` when the target is not an object) and the
patch's entries are applied in order.  An absent target property (`undefined`)
is encoded by `Json.null`, which `isObject` rejects exactly like `undefined`,
so recursive merges into missing keys behave as in the source. -/
def jsonMergePatch : Json → Json → Json
  | target, .obj patchFields =>
      .obj (jsonMergePatchEntries
        (match target with | .obj tf => tf | _ => []) patchFields)
  | _, patch => patch

/-- The `for (const [key, value] of Object.entries(patch))` loop body of
`jsonMergePatch`: `null` deletes the key, any other value is merged
recursively into the current value at that key. -/
def jsonMergePatchEntries :
    List (String × Json) → List (String × Json) → List (String × Json)
  | result, [] => result
  | result, (key, .null) :: rest =>
      jsonMergePatchEntries (objDelete key result) rest
  | result, (key, value) :: rest =>
      jsonMergePatchEntries
        (objSet key (jsonMergePatch ((objGet key result).getD .null) value) result) rest

end

/-! ### Behaviour of the association-list primitives -/

theorem objDelete_cons (key k : String) (v : Json) (rest : List (String × Json)) :
    objDelete key ((k, v) :: rest) =
      if k = key then objDelete key rest else (k, v) :: objDelete key rest := by
  by_cases h : k = key <;> simp [objDelete, List.filter_cons, h]

theorem objGet_objDelete_self (key : String) (fields : List (String × Json)) :
    objGet key (objDelete key fields) = none := by
  induction fields with
  | nil => rfl
  | cons p rest ih =>
      obtain ⟨k, v⟩ := p
      rw [objDelete_cons]
      by_cases h : k = key
      · simpa [h] using ih
      · simpa [objGet, h] using ih

theorem objGet_objDelete_ne (key k : String) (fields : List (String × Json))
    (hne : k ≠ key) : objGet k (objDelete key fields) = objGet k fields := by
  induction fields with
  | nil => rfl
  | cons p rest ih =>
      obtain ⟨k₁, v⟩ := p
      rw [objDelete_cons]
      by_cases h : k₁ = key
      · simpa [h, objGet, Ne.symm hne] using ih
      · by_cases hk : k₁ = k
        · simp [hk, hne, objGet]
        · simpa [h, objGet, hk] using ih

/-! ### Claims about the deep-merge engine -/

/-- **C2.** For every object target and every key `k` present in the target,
`jsonMergePatch target {k: null}` yields an object in which `k` is absent and
every other key of the target maps to the same value as before the merge:
`null` is a tombstone and no other key is affected. -/
theorem c2_merge_tombstone (fields : List (String × Json)) (k : String)
    (_hpresent : (objGet k fields).isSome) :
    ∃ fields', jsonMergePatch (.obj fields) (.obj [(k, Json.null)]) = .obj fields' ∧
      objGet k fields' = none ∧
      ∀ k', k' ≠ k → objGet k' fields' = objGet k' fields := by
  refine ⟨objDelete k fields, ?_, objGet_objDelete_self k fields,
    fun k' hk' => objGet_objDelete_ne k k' fields hk'⟩
  simp [jsonMergePatch, jsonMergePatchEntries]

/-- Witness for C2 at the concrete target `{a: 1, b: 2}` and key `"a"`. -/
theorem c2_merge_tombstone_witness :
    (objGet "a" [("a", Json.num 1), ("b", Json.num 2)]).isSome ∧
    ∃ fields',
      jsonMergePatch (.obj [("a", Json.num 1), ("b", Json.num 2)])
          (.obj [("a", Json.null)]) = .obj fields' ∧
      objGet "a" fields' = none ∧
      ∀ k', k' ≠ "a" → objGet k' fields' = objGet k' [("a", Json.num 1), ("b", Json.num 2)] :=
  ⟨by simp [objGet], c2_merge_tombstone [("a", Json.num 1), ("b", Json.num 2)] "a"
    (by simp [objGet])⟩

/-- **C3.** For every target and every patch that is not an object (a scalar,
an array, or `null`), `jsonMergePatch target patch` equals the patch itself;
in particular `merge({a:[1,2,3]}, {a:[4,5]})` equals `{a:[4,5]}` — arrays are
replaced wholesale, never merged element-wise. -/
theorem c3_merge_replaces_non_objects :
    (∀ target patch, isObject patch = false → jsonMergePatch target patch = patch) ∧
    jsonMergePatch
        (.obj [("a", .arr [.num 1, .num 2, .num 3])])
        (.obj [("a", .arr [.num 4, .num 5])]) =
      .obj [("a", .arr [.num 4, .num 5])] := by
  constructor
  · intro target patch hpatch
    cases patch <;> simp_all [isObject, jsonMergePatch]
  · simp [jsonMergePatch, jsonMergePatchEntries, objGet, objSet]

/-- Witness for C3's non-object hypothesis at the scalar patch `42`. -/
theorem c3_merge_replaces_non_objects_witness :
    isObject (Json.num 42) = false ∧
    jsonMergePatch (Json.obj [("a", Json.num 1)]) (Json.num 42) = Json.num 42 :=
  ⟨rfl, c3_merge_replaces_non_objects.1 _ _ rfl⟩

/-! ## Capability whitelists and validation (`src/types.ts`) -/

/-- JS `Array.prototype.join(sep)`. -/
def jsJoin (sep : String) : List String → String
  | [] => ""
  | [x] => x
  | x :: xs => x ++ sep ++ jsJoin sep xs

def GENERAL_CAPABILITIES : List String :=
  ["internetClient", "internetClientServer", "privateNetworkClientServer",
   "allJoyn", "codeGeneration"]

def DEVICE_CAPABILITIES : List String :=
  ["webcam", "microphone", "location", "proximity", "bluetooth",
   "serialcommunication", "usb", "humaninterfacedevice", "pointOfService",
   "lowLevelDevices", "gazeInput", "radios"]

def RESTRICTED_CAPABILITIES : List String :=
  ["broadFileSystemAccess", "allowElevation", "appCaptureSettings",
   "appDiagnostics", "backgroundSpatialPerception", "deviceUnlock",
   "expandedResources", "extendedBackgroundTaskTime",
   "extendedExecutionBackgroundAudio", "extendedExecutionCritical",
   "extendedExecutionUnconstrained", "inputForegroundObservation",
   "locationHistory", "locationSystem", "networkingVpnProvider",
   "packageManagement", "packageQuery", "previewStore", "systemManagement",
   "unvirtualizedResources", "userSystemId"]

/-- `CapabilitiesConfig` from `src/types.ts`; `none` is an absent
(`undefined`) field. -/
structure CapabilitiesConfig where
  general : Option (List String) := none
  device : Option (List String) := none
  restricted : Option (List String) := none

def DEFAULT_CAPABILITIES : CapabilitiesConfig :=
  { general := some ["internetClient"] }

/-- The violation message pushed for an invalid general capability. -/
def generalCapabilityError (cap : String) : String :=
  "Invalid general capability: \"" ++ cap ++ "\". Valid: " ++
    jsJoin ", " GENERAL_CAPABILITIES

/-- The violation message pushed for an invalid device capability. -/
def deviceCapabilityError (cap : String) : String :=
  "Invalid device capability: \"" ++ cap ++ "\". Valid: " ++
    jsJoin ", " DEVICE_CAPABILITIES

/-- The violation message pushed for an invalid restricted capability. -/
def restrictedCapabilityError (cap : String) : String :=
  "Invalid restricted capability: \"" ++ cap ++ "\". Valid: " ++
    jsJoin ", " RESTRICTED_CAPABILITIES

/-- `validateCapabilities` from `src/types.ts`: three guarded `for` loops
push one message per declared token missing from the category's whitelist,
in category order general, device, restricted.  Each loop is embedded as
`filter`-then-`map` over the declared list, which appends the same messages
in the same order as the imperative `errors.push` loop. -/
def validateCapabilities (config : CapabilitiesConfig) : List String :=
  (match config.general with
   | some caps =>
       (caps.filter (fun cap => !GENERAL_CAPABILITIES.contains cap)).map
         generalCapabilityError
   | none => [])
  ++ (match config.device with
   | some caps =>
       (caps.filter (fun cap => !DEVICE_CAPABILITIES.contains cap)).map
         deviceCapabilityError
   | none => [])
  ++ (match config.restricted with
   | some caps =>
       (caps.filter (fun cap => !RESTRICTED_CAPABILITIES.contains cap)).map
         restrictedCapabilityError
   | none => [])

/-! ## Capability XML rendering (`generateCapabilities`, `src/core/manifest.ts`) -/

/-- The always-emitted full-trust capability line. -/
def runFullTrustLine : String :=
  "    <rescap:Capability Name=\"runFullTrust\" />"

/-- `generateCapabilities` from `src/core/manifest.ts`: unconditionally push
the `runFullTrust` line, then one line per declared token of each category,
and join with newlines. -/
def generateCapabilities (config : CapabilitiesConfig) : String :=
  jsJoin "\n"
    ([runFullTrustLine]
      ++ (match config.general with
          | some caps => caps.map
              (fun cap => "    <Capability Name=\"" ++ cap ++ "\" />")
          | none => [])
      ++ (match config.device with
          | some caps => caps.map
              (fun cap => "    <DeviceCapability Name=\"" ++ cap ++ "\" />")
          | none => [])
      ++ (match config.restricted with
          | some caps => caps.map
              (fun cap => "    <rescap:Capability Name=\"" ++ cap ++ "\" />")
          | none => []))

/-- The `CAPABILITIES` template variable computed by `generateManifest`
(`src/core/manifest.ts`): `generateCapabilities(config.capabilities ||
DEFAULT_CAPABILITIES)` — an absent (`undefined`) capabilities field falls
back to `DEFAULT_CAPABILITIES`, while any present object (even empty) is
used as-is. -/
def manifestCapabilitiesVariable (capabilities : Option CapabilitiesConfig) : String :=
  generateCapabilities
    (match capabilities with
     | some c => c
     | none => DEFAULT_CAPABILITIES)

theorem jsJoin_cons_head_append (sep x : String) (xs : List String) :
    ∃ rest, jsJoin sep (x :: xs) = x ++ rest := by
  cases xs with
  | nil => exact ⟨"", by simp [jsJoin]⟩
  | cons y ys => exact ⟨sep ++ jsJoin sep (y :: ys), by simp [jsJoin, String.append_assoc]⟩

/-! ### Claims about capability validation and rendering -/

set_option maxRecDepth 8192 in
/-- **C5.** `validateCapabilities` returns one violation message for every
declared token absent from its category's whitelist, collecting all
violations in the fixed category order general, device, restricted, with
declaration order kept inside each category; the result is empty exactly
when every declared token is whitelisted; and `{general: ["bad1"], device:
["bad2"]}` yields exactly the two messages, general's first, each naming
the offending token and the category's full valid set. -/
theorem c5_validate_capabilities_exhaustive (config : CapabilitiesConfig) :
    validateCapabilities config =
      ((config.general.getD []).filter
          (fun cap => !GENERAL_CAPABILITIES.contains cap)).map generalCapabilityError
        ++ ((config.device.getD []).filter
          (fun cap => !DEVICE_CAPABILITIES.contains cap)).map deviceCapabilityError
        ++ ((config.restricted.getD []).filter
          (fun cap => !RESTRICTED_CAPABILITIES.contains cap)).map restrictedCapabilityError
    ∧ (validateCapabilities config = [] ↔
        (∀ cap ∈ config.general.getD [], cap ∈ GENERAL_CAPABILITIES) ∧
        (∀ cap ∈ config.device.getD [], cap ∈ DEVICE_CAPABILITIES) ∧
        (∀ cap ∈ config.restricted.getD [], cap ∈ RESTRICTED_CAPABILITIES))
    ∧ validateCapabilities ⟨some ["bad1"], some ["bad2"], none⟩ =
        ["Invalid general capability: \"bad1\". Valid: internetClient, internetClientServer, privateNetworkClientServer, allJoyn, codeGeneration",
         "Invalid device capability: \"bad2\". Valid: webcam, microphone, location, proximity, bluetooth, serialcommunication, usb, humaninterfacedevice, pointOfService, lowLevelDevices, gazeInput, radios"] := by
  have hstruct : validateCapabilities config =
      ((config.general.getD []).filter
          (fun cap => !GENERAL_CAPABILITIES.contains cap)).map generalCapabilityError
        ++ ((config.device.getD []).filter
          (fun cap => !DEVICE_CAPABILITIES.contains cap)).map deviceCapabilityError
        ++ ((config.restricted.getD []).filter
          (fun cap => !RESTRICTED_CAPABILITIES.contains cap)).map restrictedCapabilityError := by
    obtain ⟨g, d, r⟩ := config
    cases g <;> cases d <;> cases r <;> simp [validateCapabilities]
  refine ⟨hstruct, ?_, by decide⟩
  rw [hstruct]
  simp [List.filter_eq_nil_iff, List.contains, List.elem_iff]

/-- Witness for C5's bounded quantifications at the concrete declaration
`{general: ["bad1"], device: ["bad2"]}`. -/
theorem c5_validate_capabilities_exhaustive_witness :
    validateCapabilities ⟨some ["bad1"], some ["bad2"], none⟩ =
      ["Invalid general capability: \"bad1\". Valid: internetClient, internetClientServer, privateNetworkClientServer, allJoyn, codeGeneration",
       "Invalid device capability: \"bad2\". Valid: webcam, microphone, location, proximity, bluetooth, serialcommunication, usb, humaninterfacedevice, pointOfService, lowLevelDevices, gazeInput, radios"] :=
  (c5_validate_capabilities_exhaustive ⟨some ["bad1"], some ["bad2"], none⟩).2.2

/-- **C6.** The rendered capability XML block always starts with the
`runFullTrust` declaration, whatever the user declared, and rendering an
entirely empty `CapabilitiesConfig` (all three category lists absent, or all
present but empty) yields exactly that one full-trust line and nothing
else. -/
theorem c6_run_full_trust_always_rendered (config : CapabilitiesConfig) :
    (∃ rest, generateCapabilities config = runFullTrustLine ++ rest) ∧
    generateCapabilities ⟨none, none, none⟩ = runFullTrustLine ∧
    generateCapabilities ⟨some [], some [], some []⟩ = runFullTrustLine := by
  refine ⟨?_, by rfl, by rfl⟩
  unfold generateCapabilities
  rw [List.append_assoc, List.append_assoc, List.singleton_append]
  exact jsJoin_cons_head_append "\n" runFullTrustLine _

/-- **C10.** In manifest generation, an absent (`undefined`) capabilities
field renders the `CAPABILITIES` placeholder from `DEFAULT_CAPABILITIES`
(`runFullTrust` plus the general `internetClient` token), whereas an
explicitly present but empty capabilities object renders `runFullTrust`
alone — so the two rendered texts differ. -/
theorem c10_absent_vs_empty_capabilities :
    manifestCapabilitiesVariable none =
      "    <rescap:Capability Name=\"runFullTrust\" />\n    <Capability Name=\"internetClient\" />"
    ∧ manifestCapabilitiesVariable (some ⟨none, none, none⟩) =
      "    <rescap:Capability Name=\"runFullTrust\" />"
    ∧ manifestCapabilitiesVariable none ≠
      manifestCapabilitiesVariable (some ⟨none, none, none⟩) :=
  ⟨by rfl, by rfl, by decide⟩

/-! ## Version normalization (`toFourPartVersion`, `src/core/project-discovery.ts`)

The version string is embedded as its character list so that the
`split('.')` / `join('.')` round trip can be reasoned about; `List.splitOn`
has exactly the semantics of JS `String.prototype.split` with a single-char
separator (in particular `''.split('.')` is `['']`). -/

/-- `toFourPartVersion` from `src/core/project-discovery.ts`: split the
version on dots, push `"0"` segments while fewer than four, keep the first
four, join with dots. -/
def toFourPartVersion (version : List Char) : List Char :=
  let parts := version.splitOn '.'
  let padded := parts ++ List.replicate (4 - parts.length) ['0']
  List.intercalate ['.'] (padded.take 4)

theorem splitOnP_sep_free {α : Type} (p : α → Bool) (xs : List α) :
    ∀ l ∈ xs.splitOnP p, ∀ y ∈ l, ¬ p y := by
  induction xs with
  | nil =>
      intro l hl
      rw [List.splitOnP_nil, List.mem_singleton] at hl
      subst hl
      simp
  | cons a as ih =>
      intro l hl
      rw [List.splitOnP_cons] at hl
      by_cases h : p a
      · rw [if_pos h, List.mem_cons] at hl
        rcases hl with rfl | hl
        · simp
        · exact ih l hl
      · rw [if_neg h] at hl
        obtain ⟨h₀, t, heq⟩ : ∃ h₀ t, as.splitOnP p = h₀ :: t := by
          cases hsp : as.splitOnP p with
          | nil => exact absurd hsp (List.splitOnP_ne_nil p as)
          | cons h₀ t => exact ⟨h₀, t, rfl⟩
        rw [heq, List.modifyHead_cons, List.mem_cons] at hl
        rcases hl with rfl | hl
        · intro y hy
          rw [List.mem_cons] at hy
          rcases hy with rfl | hy
          · simpa using h
          · exact ih h₀ (heq ▸ List.mem_cons_self h₀ t) y hy
        · exact ih l (heq ▸ List.mem_cons_of_mem h₀ hl)

theorem splitOn_sep_free {α : Type} [DecidableEq α] (x : α) (xs : List α) :
    ∀ l ∈ xs.splitOn x, x ∉ l := by
  intro l hl hmem
  exact splitOnP_sep_free (· == x) xs l hl x hmem (by simp)

/-- Characterization of `toFourPartVersion`: the output's dot-segments are
the input's dot-segments, padded on the right with `"0"` segments up to
four and truncated beyond four. -/
theorem toFourPartVersion_splitOn (version : List Char) :
    (toFourPartVersion version).splitOn '.' =
      (version.splitOn '.'
        ++ List.replicate (4 - (version.splitOn '.').length) ['0']).take 4 := by
  unfold toFourPartVersion
  apply List.splitOn_intercalate
  · intro l hl
    have hl' := List.mem_of_mem_take hl
    rw [List.mem_append] at hl'
    rcases hl' with hl' | hl'
    · exact splitOn_sep_free '.' version l hl'
    · rw [List.eq_of_mem_replicate hl']
      decide
  · have hlen : 1 ≤ (version.splitOn '.').length :=
      List.length_pos.mpr (List.splitOnP_ne_nil _ version)
    have : ((version.splitOn '.'
        ++ List.replicate (4 - (version.splitOn '.').length) ['0']).take 4).length = 4 := by
      rw [List.length_take, List.length_append, List.length_replicate]
      omega
    intro hnil
    rw [hnil] at this
    simp at this

/-! ### Claims about version normalization -/

/-- **C4.** Four-segment normalization always returns a string of exactly
four dot-separated segments — missing trailing segments are padded with
`"0"` and segments beyond the fourth are dropped; in particular `"1.0"`
normalizes to `"1.0.0.0"` and `"1.2.3.4.5"` to `"1.2.3.4"`. -/
theorem c4_version_normalized_to_four_segments (version : List Char) :
    ((toFourPartVersion version).splitOn '.').length = 4 ∧
    (toFourPartVersion version).splitOn '.' =
      (version.splitOn '.'
        ++ List.replicate (4 - (version.splitOn '.').length) ['0']).take 4 ∧
    toFourPartVersion "1.0".data = "1.0.0.0".data ∧
    toFourPartVersion "1.2.3.4.5".data = "1.2.3.4".data := by
  refine ⟨?_, toFourPartVersion_splitOn version, by decide, by decide⟩
  rw [toFourPartVersion_splitOn version]
  have hlen : 1 ≤ (version.splitOn '.').length :=
    List.length_pos.mpr (List.splitOnP_ne_nil _ version)
  rw [List.length_take, List.length_append, List.length_replicate]
  omega

/-- **C9.** `toFourPartVersion` performs no numeric validation: for every
input — the empty string and non-numeric segments included — the output
splits on `"."` into exactly four segments, the input's first four segments
being carried verbatim; in particular `"abc"` maps to `"abc.0.0.0"` and
`""` to `".0.0.0"`. -/
theorem c9_no_numeric_validation (version : List Char) :
    ((toFourPartVersion version).splitOn '.').length = 4 ∧
    (∀ i : Nat, i < 4 → i < (version.splitOn '.').length →
      ((toFourPartVersion version).splitOn '.').getD i [] =
        (version.splitOn '.').getD i []) ∧
    toFourPartVersion "abc".data = "abc.0.0.0".data ∧
    toFourPartVersion "".data = ".0.0.0".data := by
  have hchar := toFourPartVersion_splitOn version
  have hlen : 1 ≤ (version.splitOn '.').length :=
    List.length_pos.mpr (List.splitOnP_ne_nil _ version)
  refine ⟨?_, ?_, by decide, by decide⟩
  · rw [hchar, List.length_take, List.length_append, List.length_replicate]
    omega
  · intro i hi4 hilen
    rw [hchar, List.getD_eq_getElem?_getD, List.getD_eq_getElem?_getD,
      List.getElem?_take_of_lt hi4, List.getElem?_append_left hilen]

/-! ## Deterministic pseudo-CLSID derivation (`generateClsid`, `src/core/manifest.ts`)

The seed string is embedded as its list of UTF-16 code units (what JS
`charCodeAt` iterates over); the JS 32-bit signed wrap-around of
`hash = (hash << 5) - hash + char; hash = hash & hash;` is made explicit. -/

/-- JS `ToInt32`: wrap an integer into the signed 32-bit range, as the
bitwise operators `<<` and `&` do. -/
def toInt32 (x : Int) : Int :=
  let r := x.emod 4294967296
  if r < 2147483648 then r else r - 4294967296

/-- One iteration of `generateClsid`'s hash loop:
`hash = (hash << 5) - hash + char` followed by `hash = hash & hash`. -/
def clsidHashStep (h : Int) (c : Nat) : Int :=
  toInt32 (toInt32 (h * 32) - h + c)

/-- The rolling hash over the seed's character codes, starting from 0. -/
def clsidHash (seed : List Nat) : Int :=
  seed.foldl clsidHashStep 0

/-- Lowercase hexadecimal digit character, as produced by JS
`Number.prototype.toString(16)`. -/
def hexDigit (n : Nat) : Char :=
  if n < 10 then Char.ofNat (48 + n) else Char.ofNat (87 + n)

/-- Hexadecimal digits of `n`, least significant first. -/
def hexDigitsRev : Nat → List Char
  | 0 => []
  | n + 1 => hexDigit ((n + 1) % 16) :: hexDigitsRev ((n + 1) / 16)
decreasing_by exact Nat.div_lt_self (Nat.succ_pos n) (by decide)

/-- JS `Number.prototype.toString(16)` on a nonnegative integer: lowercase
hex digits, most significant first, `"0"` for zero. -/
def jsHex (n : Nat) : List Char :=
  if n = 0 then ['0'] else (hexDigitsRev n).reverse

/-- JS `String.prototype.padStart(len, c)`. -/
def padStart (len : Nat) (c : Char) (s : List Char) : List Char :=
  List.replicate (len - s.length) c ++ s

/-- JS `String.prototype.toUpperCase` on the ASCII characters appearing in
the CLSID string. -/
def jsToUpper (c : Char) : Char :=
  if 'a' ≤ c ∧ c ≤ 'z' then Char.ofNat (c.toNat - 32) else c

/-- `generateClsid` from `src/core/manifest.ts`: a deterministic GUID-like
string from the hash — `Math.abs` of the hash, and of the hash times 31, 37
and 41, formatted as zero-padded hex (8, 8, 8 and 12 positions), sliced
into 8-4-4-4-12 groups, braced and upper-cased. -/
def generateClsid (seed : List Nat) : List Char :=
  let hash := clsidHash seed
  let hex := padStart 8 '0' (jsHex hash.natAbs)
  let hex2 := padStart 8 '0' (jsHex (hash * 31).natAbs)
  let hex3 := padStart 8 '0' (jsHex (hash * 37).natAbs)
  let hex4 := padStart 12 '0' (jsHex (hash * 41).natAbs)
  ([Char.ofNat 123] ++ hex.take 8 ++ ['-'] ++ hex2.take 4 ++ ['-']
    ++ (hex2.drop 4).take 4 ++ ['-'] ++ hex3.take 4 ++ ['-'] ++ hex4.take 12
    ++ [Char.ofNat 125]).map jsToUpper

theorem hexDigit_mem_lower (d : Nat) (h : d < 16) :
    hexDigit d ∈ "0123456789abcdef".data := by
  interval_cases d <;> decide

theorem hexDigitsRev_mem_lower :
    ∀ n : Nat, ∀ c ∈ hexDigitsRev n, c ∈ "0123456789abcdef".data := by
  intro n
  induction n using Nat.strong_induction_on with
  | _ n ih =>
    match n with
    | 0 => intro c hc; simp [hexDigitsRev] at hc
    | m + 1 =>
      intro c hc
      rw [hexDigitsRev] at hc
      rcases List.mem_cons.mp hc with rfl | hc
      · exact hexDigit_mem_lower _ (Nat.mod_lt _ (by decide))
      · exact ih ((m + 1) / 16) (Nat.div_lt_self (Nat.succ_pos m) (by decide)) c hc

theorem jsHex_mem_lower (n : Nat) : ∀ c ∈ jsHex n, c ∈ "0123456789abcdef".data := by
  intro c hc
  unfold jsHex at hc
  split at hc
  · rw [List.mem_singleton] at hc
    subst hc
    decide
  · exact hexDigitsRev_mem_lower n c (List.mem_reverse.mp hc)

theorem padStart_hex_mem_lower (len : Nat) (m : Nat) :
    ∀ d ∈ padStart len '0' (jsHex m), d ∈ "0123456789abcdef".data := by
  intro d hd
  rcases List.mem_append.mp hd with h | h
  · rw [List.eq_of_mem_replicate h]
    decide
  · exact jsHex_mem_lower m d h

theorem jsToUpper_hex (d : Char) (h : d ∈ "0123456789abcdef".data) :
    jsToUpper d ∈ "0123456789ABCDEF".data := by
  fin_cases h <;> decide

theorem padStart_length (len : Nat) (c : Char) (s : List Char) :
    (padStart len c s).length = max len s.length := by
  simp [padStart]
  omega

/-! ### Claim about the pseudo-CLSID derivation -/

/-- **C8.** The pseudo-CLSID derivation is deterministic — equal seeds give
byte-identical output — and its output always matches the canonical braced,
hyphen-grouped 8-4-4-4-12 shape made solely of uppercase hexadecimal
digits. -/
theorem c8_clsid_deterministic_and_canonical :
    (∀ s₁ s₂ : List Nat, s₁ = s₂ → generateClsid s₁ = generateClsid s₂) ∧
    ∀ seed : List Nat, ∃ g₁ g₂ g₃ g₄ g₅ : List Char,
      generateClsid seed =
        [Char.ofNat 123] ++ g₁ ++ ['-'] ++ g₂ ++ ['-'] ++ g₃ ++ ['-'] ++ g₄
          ++ ['-'] ++ g₅ ++ [Char.ofNat 125] ∧
      g₁.length = 8 ∧ g₂.length = 4 ∧ g₃.length = 4 ∧ g₄.length = 4 ∧
      g₅.length = 12 ∧
      ∀ c ∈ g₁ ++ g₂ ++ g₃ ++ g₄ ++ g₅, c ∈ "0123456789ABCDEF".data := by
  constructor
  · intro s₁ s₂ h
    rw [h]
  · intro seed
    have hbrace : jsToUpper (Char.ofNat 123) = Char.ofNat 123 := by decide
    have hbrace' : jsToUpper (Char.ofNat 125) = Char.ofNat 125 := by decide
    have hdash : jsToUpper '-' = '-' := by decide
    set hash := clsidHash seed with hhash
    set hex := padStart 8 '0' (jsHex hash.natAbs) with hhex
    set hex2 := padStart 8 '0' (jsHex (hash * 31).natAbs) with hhex2
    set hex3 := padStart 8 '0' (jsHex (hash * 37).natAbs) with hhex3
    set hex4 := padStart 12 '0' (jsHex (hash * 41).natAbs) with hhex4
    refine ⟨(hex.take 8).map jsToUpper, (hex2.take 4).map jsToUpper,
      ((hex2.drop 4).take 4).map jsToUpper, (hex3.take 4).map jsToUpper,
      (hex4.take 12).map jsToUpper, ?_, ?_, ?_, ?_, ?_, ?_, ?_⟩
    · show generateClsid seed = _
      unfold generateClsid
      simp only [List.map_append, List.map_cons, List.map_nil, hbrace, hbrace',
        hdash, ← hhash, ← hhex, ← hhex2, ← hhex3, ← hhex4]
    · have h1 : hex.length = max 8 (jsHex hash.natAbs).length := by
        rw [hhex]; exact padStart_length _ _ _
      simp only [List.length_map, List.length_take]
      omega
    · have h1 : hex2.length = max 8 (jsHex (hash * 31).natAbs).length := by
        rw [hhex2]; exact padStart_length _ _ _
      simp only [List.length_map, List.length_take]
      omega
    · have h1 : hex2.length = max 8 (jsHex (hash * 31).natAbs).length := by
        rw [hhex2]; exact padStart_length _ _ _
      simp only [List.length_map, List.length_take, List.length_drop]
      omega
    · have h1 : hex3.length = max 8 (jsHex (hash * 37).natAbs).length := by
        rw [hhex3]; exact padStart_length _ _ _
      simp only [List.length_map, List.length_take]
      omega
    · have h1 : hex4.length = max 12 (jsHex (hash * 41).natAbs).length := by
        rw [hhex4]; exact padStart_length _ _ _
      simp only [List.length_map, List.length_take]
      omega
    · intro c hc
      have : ∃ d, c = jsToUpper d ∧ d ∈ "0123456789abcdef".data := by
        simp only [List.mem_append] at hc
        rcases hc with (((h | h) | h) | h) | h
        · obtain ⟨d, hd, rfl⟩ := List.mem_map.mp h
          exact ⟨d, rfl, padStart_hex_mem_lower 8 hash.natAbs d (List.mem_of_mem_take hd)⟩
        · obtain ⟨d, hd, rfl⟩ := List.mem_map.mp h
          exact ⟨d, rfl, padStart_hex_mem_lower 8 (hash * 31).natAbs d
            (List.mem_of_mem_take hd)⟩
        · obtain ⟨d, hd, rfl⟩ := List.mem_map.mp h
          exact ⟨d, rfl, padStart_hex_mem_lower 8 (hash * 31).natAbs d
            (List.mem_of_mem_drop (List.mem_of_mem_take hd))⟩
        · obtain ⟨d, hd, rfl⟩ := List.mem_map.mp h
          exact ⟨d, rfl, padStart_hex_mem_lower 8 (hash * 37).natAbs d
            (List.mem_of_mem_take hd)⟩
        · obtain ⟨d, hd, rfl⟩ := List.mem_map.mp h
          exact ⟨d, rfl, padStart_hex_mem_lower 12 (hash * 41).natAbs d
            (List.mem_of_mem_take hd)⟩
      obtain ⟨d, rfl, hd⟩ := this
      exact jsToUpper_hex d hd

/-- Witness for C8's determinism hypothesis at the concrete seed
`"hi"` (code units `[104, 105]`), together with the shape instance. -/
theorem c8_clsid_deterministic_and_canonical_witness :
    generateClsid [104, 105] = generateClsid [104, 105] ∧
    (∃ g₁ g₂ g₃ g₄ g₅ : List Char,
      generateClsid [104, 105] =
        [Char.ofNat 123] ++ g₁ ++ ['-'] ++ g₂ ++ ['-'] ++ g₃ ++ ['-'] ++ g₄
          ++ ['-'] ++ g₅ ++ [Char.ofNat 125] ∧
      g₁.length = 8 ∧ g₂.length = 4 ∧ g₃.length = 4 ∧ g₄.length = 4 ∧
      g₅.length = 12 ∧
      ∀ c ∈ g₁ ++ g₂ ++ g₃ ++ g₄ ++ g₅, c ∈ "0123456789ABCDEF".data) :=
  ⟨c8_clsid_deterministic_and_canonical.1 [104, 105] [104, 105] rfl,
   c8_clsid_deterministic_and_canonical.2 [104, 105]⟩

/-- Witness for C9's segment-carrying implication at version
`"a.b.c.d.e"` and index 0. -/
theorem c9_no_numeric_validation_witness :
    (0 : Nat) < 4 ∧ (0 : Nat) < ("a.b.c.d.e".data.splitOn '.').length ∧
    ((toFourPartVersion "a.b.c.d.e".data).splitOn '.').getD 0 [] =
      ("a.b.c.d.e".data.splitOn '.').getD 0 [] :=
  ⟨by decide, by decide,
    (c9_no_numeric_validation "a.b.c.d.e".data).2.1 0 (by decide) (by decide)⟩

/-! ## Configuration records (`src/types.ts`)

`none` embeds an absent (`undefined`) optional field; `Option (Option String)`
embeds `string | null` optional fields (`some none` is an explicit `null`). -/

/-- An entry of `bundle.resources`: either a plain path string or a
`{ src, target }` mapping. -/
inductive ResourceEntry where
  | plain (path : String) : ResourceEntry
  | mapped (src target : String) : ResourceEntry

structure WindowsBundleOptions where
  certificateThumbprint : Option String := none

/-- The `bundle` sub-document of `TauriConfig`. -/
structure TauriBundleConfig where
  icon : Option (List String) := none
  shortDescription : Option String := none
  longDescription : Option String := none
  publisher : Option String := none
  resources : Option (List ResourceEntry) := none
  windows : Option WindowsBundleOptions := none

/-- `TauriConfig` from `src/types.ts` — the app-level configuration document
(`tauri.conf.json`, and the optional `tauri.windows.conf.json` override). -/
structure TauriConfig where
  productName : Option String := none
  version : Option String := none
  identifier : Option String := none
  bundle : Option TauriBundleConfig := none

structure FileAssociation where
  name : String
  extensions : List String
  description : Option String := none

structure ProtocolHandler where
  name : String
  displayName : Option String := none

structure StartupTask where
  enabled : Bool
  taskId : Option String := none

structure ContextMenu where
  name : String
  fileTypes : List String
  displayName : Option String := none

inductive BackgroundTaskType where
  | timer
  | systemEvent
  | pushNotification

structure BackgroundTask where
  name : String
  type : BackgroundTaskType

structure AppExecutionAlias where
  «alias» : String
  displayName : Option String := none

structure AppService where
  name : String
  serverName : Option String := none

inductive ToastActivationType where
  | foreground
  | background
  | protocol

structure ToastActivation where
  activationType : ToastActivationType

structure AutoplayHandler where
  verb : String
  actionDisplayName : String
  contentEvent : Option String := none
  deviceEvent : Option String := none

structure PrintTaskSettings where
  displayName : String

structure ThumbnailHandler where
  clsid : String
  fileTypes : List String

structure PreviewHandler where
  clsid : String
  fileTypes : List String

/-- The `extensions` sub-document of `BundleConfig`. -/
structure ExtensionsConfig where
  shareTarget : Option Bool := none
  fileAssociations : Option (List FileAssociation) := none
  protocolHandlers : Option (List ProtocolHandler) := none
  startupTask : Option StartupTask := none
  contextMenus : Option (List ContextMenu) := none
  backgroundTasks : Option (List BackgroundTask) := none
  appExecutionAliases : Option (List AppExecutionAlias) := none
  appServices : Option (List AppService) := none
  toastActivation : Option ToastActivation := none
  autoplayHandlers : Option (List AutoplayHandler) := none
  printTaskSettings : Option PrintTaskSettings := none
  thumbnailHandlers : Option (List ThumbnailHandler) := none
  previewHandlers : Option (List PreviewHandler) := none

structure ResourceIndexConfig where
  enabled : Option Bool := none
  keepConfig : Option Bool := none

structure SigningConfig where
  pfx : Option (Option String) := none
  pfxPassword : Option (Option String) := none

/-- `BundleConfig` from `src/types.ts` — the packaging-specific document
(`bundle.config.json`). -/
structure BundleConfig where
  publisher : Option String := none
  publisherDisplayName : Option String := none
  resourceIndex : Option ResourceIndexConfig := none
  capabilities : Option CapabilitiesConfig := none
  extensions : Option ExtensionsConfig := none
  signing : Option SigningConfig := none

/-- `MergedConfig` from `src/types.ts`: the canonical resolved view —
`BundleConfig` with the six resolved mandatory string fields. -/
structure MergedConfig where
  publisher : String
  publisherDisplayName : String
  displayName : String
  version : String
  description : String
  identifier : String
  resourceIndex : Option ResourceIndexConfig := none
  capabilities : Option CapabilitiesConfig := none
  extensions : Option ExtensionsConfig := none
  signing : Option SigningConfig := none

/-- `toFourPartVersion` on `String`, through the character-list embedding. -/
def toFourPartVersionString (version : String) : String :=
  ⟨toFourPartVersion version.data⟩

/-! ## The configuration resolver

The module that loads the three configuration documents and resolves the
merged view (`src/core/appx-content.ts`, called by `build`) is not part of
the source snapshot — only its caller and its tests are — so the resolver
below is modelled from the spec (§4.3). -/

/-- Modelled from the spec: recursive merge-patch of a platform-override
`windows` sub-object over the base one (missing source module
`src/core/appx-content.ts`; §4.1/§4.3 step 1).  On the typed records the
object merge is field-wise: an override field wins when present. -/
def mergeWindowsBundleOptions (base override : WindowsBundleOptions) :
    WindowsBundleOptions where
  certificateThumbprint :=
    override.certificateThumbprint <|> base.certificateThumbprint

/-- Modelled from the spec: recursive merge-patch of a platform-override
`bundle` sub-object over the base one (missing source module
`src/core/appx-content.ts`; §4.1/§4.3 step 1): object keys merge
recursively, present override scalars replace base scalars, arrays replace
wholesale.  `null` tombstones are not representable on the typed records and
no claim exercises them. -/
def mergeTauriBundleConfig (base override : TauriBundleConfig) :
    TauriBundleConfig where
  icon := override.icon <|> base.icon
  shortDescription := override.shortDescription <|> base.shortDescription
  longDescription := override.longDescription <|> base.longDescription
  publisher := override.publisher <|> base.publisher
  resources := override.resources <|> base.resources
  windows :=
    match base.windows, override.windows with
    | some b, some o => some (mergeWindowsBundleOptions b o)
    | none, some o => some o
    | some b, none => some b
    | none, none => none

/-- Modelled from the spec: step 1 of the resolver (missing source module
`src/core/appx-content.ts`) — when the platform-override document exists,
deep-merge it over the base document to obtain the effective app config. -/
def effectiveTauriConfig (base : TauriConfig) (override : Option TauriConfig) :
    TauriConfig :=
  match override with
  | none => base
  | some o =>
      { productName := o.productName <|> base.productName
        version := o.version <|> base.version
        identifier := o.identifier <|> base.identifier
        bundle :=
          match base.bundle, o.bundle with
          | some b, some ob => some (mergeTauriBundleConfig b ob)
          | none, some ob => some ob
          | some b, none => some b
          | none, none => none }

/-- The distinct error of spec §7 for an unresolvable publisher. -/
def publisherRequiredError : String := "Publisher is required"

/-- Modelled from the spec: the configuration resolver of §4.3 (missing
source module `src/core/appx-content.ts`).  Steps in order: merge the
override document (step 1); resolve `displayName`, `version` (four-segment
normalized), `description` and `identifier` with their literal fallbacks
(steps 2–5); resolve `publisher` from the packaging config, else the
effective app config's bundle publisher, else fail with "Publisher is
required" (step 6); resolve `publisherDisplayName` from the packaging
config, else the resolved publisher itself (step 7); carry the remaining
packaging-config fields through verbatim (step 8); validate the resolved
capabilities, failing with the joined violation messages when any exist
(step 9). -/
def resolveConfig (base : TauriConfig) (override : Option TauriConfig)
    (pkg : BundleConfig) : Except String MergedConfig :=
  let eff := effectiveTauriConfig base override
  let displayName := eff.productName.getD "App"
  let version := toFourPartVersionString (eff.version.getD "1.0.0")
  let description := (eff.bundle.bind TauriBundleConfig.shortDescription).getD displayName
  let identifier := eff.identifier.getD "com.example.app"
  match pkg.publisher <|> eff.bundle.bind TauriBundleConfig.publisher with
  | none => .error publisherRequiredError
  | some publisher =>
      let merged : MergedConfig :=
        { publisher := publisher
          publisherDisplayName := pkg.publisherDisplayName.getD publisher
          displayName := displayName
          version := version
          description := description
          identifier := identifier
          resourceIndex := pkg.resourceIndex
          capabilities := pkg.capabilities
          extensions := pkg.extensions
          signing := pkg.signing }
      match pkg.capabilities with
      | some caps =>
          if (validateCapabilities caps).isEmpty then .ok merged
          else .error (jsJoin "\n" (validateCapabilities caps))
      | none => .ok merged

/-- Any successful resolution takes its publisher from the packaging config
orelse the effective app config's bundle publisher, and its
publisherDisplayName from the packaging config orelse the resolved
publisher. -/
theorem resolveConfig_ok_spec (base : TauriConfig) (override : Option TauriConfig)
    (pkg : BundleConfig) (m : MergedConfig)
    (h : resolveConfig base override pkg = .ok m) :
    some m.publisher =
      (pkg.publisher <|>
        (effectiveTauriConfig base override).bundle.bind TauriBundleConfig.publisher) ∧
    m.publisherDisplayName = pkg.publisherDisplayName.getD m.publisher := by
  simp only [resolveConfig] at h
  split at h
  · exact absurd h (by simp)
  next pub heq =>
    split at h
    next caps hcaps =>
      by_cases hval : (validateCapabilities caps).isEmpty
      · rw [if_pos hval] at h
        simp only [Except.ok.injEq] at h
        subst h
        exact ⟨by rw [heq], rfl⟩
      · rw [if_neg hval] at h
        exact absurd h (by simp)
    next hcaps =>
      simp only [Except.ok.injEq] at h
      subst h
      exact ⟨by rw [heq], rfl⟩

/-! ### Claims about the resolver -/

/-- **C1.** (spec-modelled) Configuration resolution sets `publisher` to the
packaging config's publisher when present; otherwise to the effective
(override-merged) app config's bundle publisher when present; and when both
are absent it fails with an error containing "Publisher is required" rather
than supplying any default. -/
theorem c1_publisher_fallback_chain (base : TauriConfig)
    (override : Option TauriConfig) (pkg : BundleConfig) :
    (∀ p, pkg.publisher = some p →
      ∀ m, resolveConfig base override pkg = .ok m → m.publisher = p) ∧
    (pkg.publisher = none →
      ∀ p, (effectiveTauriConfig base override).bundle.bind
          TauriBundleConfig.publisher = some p →
      ∀ m, resolveConfig base override pkg = .ok m → m.publisher = p) ∧
    (pkg.publisher = none →
      (effectiveTauriConfig base override).bundle.bind
          TauriBundleConfig.publisher = none →
      resolveConfig base override pkg = .error publisherRequiredError ∧
      ∃ pre post, publisherRequiredError = pre ++ "Publisher is required" ++ post) := by
  refine ⟨?_, ?_, ?_⟩
  · intro p hp m h
    have hm := (resolveConfig_ok_spec base override pkg m h).1
    rw [hp, Option.some_orElse] at hm
    exact (Option.some.injEq _ _ ▸ hm)
  · intro hnone p happ m h
    have hm := (resolveConfig_ok_spec base override pkg m h).1
    rw [hnone, Option.none_orElse, happ] at hm
    exact (Option.some.injEq _ _ ▸ hm)
  · intro hnone happ
    refine ⟨?_, "", "", rfl⟩
    simp [resolveConfig, hnone, happ]

/-- Witness for C1 at empty configuration documents: both publisher sources
absent, so resolution fails with the "Publisher is required" error. -/
theorem c1_publisher_fallback_chain_witness :
    resolveConfig ({} : TauriConfig) none ({} : BundleConfig) =
      .error publisherRequiredError ∧
    ∃ pre post, publisherRequiredError = pre ++ "Publisher is required" ++ post :=
  (c1_publisher_fallback_chain {} none {}).2.2 rfl rfl

/-- **C7.** (spec-modelled) When the packaging config supplies a publisher
but omits `publisherDisplayName`, the resolved `publisherDisplayName`
equals the resolved publisher exactly — `CN=` prefix included: with
publisher `"CN=X"` and no display name, the resolved display name is
`"CN=X"`. -/
theorem c7_publisher_display_name_self_fallback (base : TauriConfig)
    (override : Option TauriConfig) (pkg : BundleConfig) :
    ∀ p, pkg.publisher = some p → pkg.publisherDisplayName = none →
      ∀ m, resolveConfig base override pkg = .ok m →
        m.publisherDisplayName = m.publisher ∧ m.publisherDisplayName = p := by
  intro p hp hpdn m h
  obtain ⟨hpub, hdisp⟩ := resolveConfig_ok_spec base override pkg m h
  rw [hp, Option.some_orElse] at hpub
  rw [hpdn, Option.getD_none] at hdisp
  exact ⟨hdisp, hdisp.trans (Option.some.injEq _ _ ▸ hpub)⟩

/-- Witness for C7 at packaging config `{publisher: "CN=X"}` over empty app
config: resolution succeeds and the display name is exactly `"CN=X"`. -/
theorem c7_publisher_display_name_self_fallback_witness :
    resolveConfig ({} : TauriConfig) none
        ({ publisher := some "CN=X" } : BundleConfig) =
      .ok ⟨"CN=X", "CN=X", "App", "1.0.0.0", "App", "com.example.app",
        none, none, none, none⟩ ∧
    ("CN=X" : String) = "CN=X" ∧ ("CN=X" : String) = "CN=X" :=
  have heq : resolveConfig ({} : TauriConfig) none
      ({ publisher := some "CN=X" } : BundleConfig) =
      .ok ⟨"CN=X", "CN=X", "App", "1.0.0.0", "App", "com.example.app",
        none, none, none, none⟩ := rfl
  ⟨heq, c7_publisher_display_name_self_fallback {} none
    { publisher := some "CN=X" } "CN=X" rfl rfl _ heq⟩

end TauriWindowsBundle
